import Mathlib

/-!
Verification of the session/room coordination layer of a two-player
real-time chess relay server (backend sources: rooms.py, socket_manager.py).

The chess rules engine (the python-chess library) and the move oracle
(Stockfish) are external collaborators of the program; following the spec
they are modelled as opaque parameters: a `RulesAuthority` record of the
exact operations the backend calls, and an oracle function
`Pos → Option Move` standing for `ChessEngine.get_best_move`.

Python `dict`s are insertion-ordered; they are embedded as association
lists where assignment to an existing key updates the entry in place and
assignment to a fresh key appends at the end, matching CPython semantics.
-/

set_option autoImplicit false

namespace SimpleChess

/-- ASCII case of Python `str.lower()` (the backend compares usernames
against the ASCII literal "raunak"). -/
def lowerChar (c : Char) : Char :=
  if 'A' ≤ c && c ≤ 'Z' then Char.ofNat (c.toNat + 32) else c

/-- Python `str.lower()` on the character sequence. -/
def pyLower (s : String) : String :=
  ⟨s.data.map lowerChar⟩

/-- Whitespace recognizer for `str.strip()` (ASCII whitespace). -/
def isSpaceChar (c : Char) : Bool :=
  c = ' ' || c = '\t' || c = '\n' || c = '\r'

/-- Python `str.strip()`: drop leading and trailing whitespace. -/
def pyStrip (s : String) : String :=
  ⟨((s.data.dropWhile isSpaceChar).reverse.dropWhile isSpaceChar).reverse⟩

/-- Lookup in an insertion-ordered map (`d.get(k)` / `d[k]`). -/
def getA {α : Type} (k : String) : List (String × α) → Option α
  | [] => none
  | (k', v) :: rest => if k' = k then some v else getA k rest

/-- Membership test (`k in d`). -/
def hasA {α : Type} (k : String) (l : List (String × α)) : Bool :=
  (getA k l).isSome

/-- Assignment `d[k] = v`: updates the existing entry in place, else appends. -/
def updateA {α : Type} (k : String) (v : α) : List (String × α) → List (String × α)
  | [] => [(k, v)]
  | (k', v') :: rest => if k' = k then (k, v) :: rest else (k', v') :: updateA k v rest

/-- Deletion `del d[k]`: removes the (first) entry with key `k`, if present. -/
def eraseA {α : Type} (k : String) : List (String × α) → List (String × α)
  | [] => []
  | (k', v') :: rest => if k' = k then rest else (k', v') :: eraseA k rest

/-- `list(d.keys())`. -/
def keysA {α : Type} (l : List (String × α)) : List String :=
  l.map Prod.fst

/-- The narrow interface through which the backend consults the external
rules engine (python-chess). Each field is one operation the backend
source calls on `chess` objects. -/
structure RulesAuthority (Pos Move : Type) where
  initial : Pos
  fromUci : String → Option Move
  toUci : Move → String
  legalMoves : Pos → List Move
  push : Pos → Move → Pos
  fen : Pos → String
  parseFen : String → Option Pos
  turnWhite : Pos → Bool
  is_checkmate : Pos → Bool
  is_stalemate : Pos → Bool
  is_insufficient_material : Pos → Bool
  is_seventyfive_moves : Pos → Bool
  is_fivefold_repetition : Pos → Bool
  is_variant_draw : Pos → Bool

variable {Pos Move : Type}

/-- rooms.py `Room`: one game room's state. -/
structure Room (Pos : Type) where
  room_id : String
  board : Pos
  players : List (String × String)
  game_log : List String
  move_count : Nat
  deriving Repr, DecidableEq

/-- rooms.py `Room.__init__`. -/
def Room.new (ra : RulesAuthority Pos Move) (room_id : String) : Room Pos :=
  { room_id := room_id, board := ra.initial, players := [], game_log := [], move_count := 0 }

/-- rooms.py `Room.add_player`: rejects if the room already has 2 players,
otherwise assigns `players[username] = socket_id`. -/
def Room.add_player (r : Room Pos) (username socket_id : String) : Room Pos × Bool :=
  if 2 ≤ r.players.length then (r, false)
  else ({ r with players := updateA username socket_id r.players }, true)

/-- rooms.py `Room.remove_player`: deletes the entry if present. -/
def Room.remove_player (r : Room Pos) (username : String) : Room Pos :=
  { r with players := eraseA username r.players }

/-- rooms.py `Room.is_full`. -/
def Room.is_full (r : Room Pos) : Bool :=
  2 ≤ r.players.length

/-- rooms.py `Room.get_other_player`: first player whose name differs. -/
def Room.get_other_player (r : Room Pos) (username : String) : Option String :=
  (keysA r.players).find? (fun p => p != username)

/-- rooms.py `Room.make_move`: parse the UCI token (a parse exception is
caught and yields `False`), check membership in `legal_moves`, and on
success push the move, bump `move_count` and append to `game_log`. -/
def Room.make_move [DecidableEq Move] (ra : RulesAuthority Pos Move) (r : Room Pos)
    (move_uci : String) : Room Pos × Bool :=
  match ra.fromUci move_uci with
  | none => (r, false)
  | some m =>
    if m ∈ ra.legalMoves r.board then
      ({ r with
          board := ra.push r.board m,
          move_count := r.move_count + 1,
          game_log := r.game_log ++ [move_uci] }, true)
    else (r, false)

/-- rooms.py `Room.get_fen`. -/
def Room.get_fen (ra : RulesAuthority Pos Move) (r : Room Pos) : String :=
  ra.fen r.board

/-- rooms.py `Room.get_turn`. -/
def Room.get_turn (ra : RulesAuthority Pos Move) (r : Room Pos) : String :=
  if ra.turnWhite r.board then "white" else "black"

/-- rooms.py `Room.get_status`: the if/elif chain over the terminal tests. -/
def Room.get_status (ra : RulesAuthority Pos Move) (r : Room Pos) : String :=
  if ra.is_checkmate r.board then "checkmate"
  else if ra.is_stalemate r.board then "stalemate"
  else if ra.is_insufficient_material r.board then "insufficient_material"
  else if ra.is_seventyfive_moves r.board then "seventyfive_moves"
  else if ra.is_fivefold_repetition r.board then "fivefold_repetition"
  else if ra.is_variant_draw r.board then "variant_draw"
  else "ongoing"

/-- The replay loop of rooms.py `Room.export_pgn`: walks the logged UCI
tokens from a fresh board; a token that fails to parse raises out of the
export (`none`); a parsed move not in the running board's legal moves is
skipped and the loop continues; a legal move is added to the record and
pushed. Returns the moves included in the record and the final replay board. -/
def replayLog [DecidableEq Move] (ra : RulesAuthority Pos Move) :
    List String → Pos → Option (List Move × Pos)
  | [], b => some ([], b)
  | u :: rest, b =>
    match ra.fromUci u with
    | none => none
    | some m =>
      if m ∈ ra.legalMoves b then
        match replayLog ra rest (ra.push b m) with
        | none => none
        | some (ms, fin) => some (m :: ms, fin)
      else replayLog ra rest b

/-- rooms.py `Room.export_pgn`, abstracted to the sequence of moves the
produced PGN records (the header strings and python-chess PGN rendering
are presentation only). -/
def Room.export_pgn [DecidableEq Move] (ra : RulesAuthority Pos Move) (r : Room Pos) :
    Option (List Move × Pos) :=
  replayLog ra r.game_log ra.initial

/-- rooms.py `RoomManager.get_or_create_room` acting on the registry map. -/
def get_or_create_room (ra : RulesAuthority Pos Move) (rooms : List (String × Room Pos))
    (room_id : String) : Room Pos × List (String × Room Pos) :=
  match getA room_id rooms with
  | some r => (r, rooms)
  | none => (Room.new ra room_id, updateA room_id (Room.new ra room_id) rooms)

/-- One delivery target of `sio.emit`: a single connection (`to=sid`) or a
socket-room broadcast (`room=room_id`). -/
inductive Target where
  | conn (sid : String)
  | room (rid : String)
  deriving Repr, DecidableEq

/-- The outbound events socket_manager.py emits, with their payload fields.
`game_state` carries optional `players`/`room_id` fields because the join
snapshot includes them and the move broadcasts do not. -/
inductive Emit where
  | error (message : String) (t : Target)
  | game_state (fen turn status : String) (players : Option (List String))
      (rid : Option String) (t : Target)
  | player_joined (username : String) (players : List String) (t : Target)
  | opponent_disconnected (t : Target)
  | move_update (fen move_uci username : String) (t : Target)
  deriving Repr, DecidableEq

/-- socket_manager.py `SocketManager` mutable state: the two identity
directory dicts and the room registry (`RoomManager.rooms`). -/
structure SMState (Pos : Type) where
  username_to_socket : List (String × String)
  socket_to_username : List (String × String)
  rooms : List (String × Room Pos)
  deriving Repr, DecidableEq

/-- The state at process start: all three dicts empty. -/
def SMState.empty (Pos : Type) : SMState Pos :=
  { username_to_socket := [], socket_to_username := [], rooms := [] }

/-- socket_manager.py `SocketManager.auto_play_for_raunak`. The Python
function recurses after each successful AI move with no bound other than
turn alternation, so the embedding takes explicit recursion fuel;
statements about it quantify over the fuel they need. -/
def auto_play [DecidableEq Move] (ra : RulesAuthority Pos Move) (oracle : Pos → Option Move) :
    Nat → String → Room Pos → Room Pos × List Emit
  | 0, _, r => (r, [])
  | fuel + 1, room_id, r =>
    if !r.is_full then (r, [])
    else
      let players_list := keysA r.players
      if players_list.length < 2 then (r, [])
      else
        match players_list.find? (fun p => pyLower p == "raunak") with
        | none => (r, [])
        | some raunak_username =>
          let is_raunak_white := players_list.indexOf raunak_username == 0
          if is_raunak_white == ra.turnWhite r.board then
            match oracle r.board with
            | none => (r, [])
            | some ai_move =>
              let move_uci := ra.toUci ai_move
              let res := r.make_move ra move_uci
              if res.2 then
                let more := auto_play ra oracle fuel room_id res.1
                (more.1,
                  [Emit.move_update (res.1.get_fen ra) move_uci raunak_username
                      (Target.room room_id),
                    Emit.game_state (res.1.get_fen ra) (res.1.get_turn ra) (res.1.get_status ra)
                      none none (Target.room room_id)] ++ more.2)
              else (r, [])
          else (r, [])

/-- The room scan of `on_disconnect`: find the first registry room (in dict
iteration order — the Python for/break loop) containing the username,
remove the player from it, notify the remaining player if any, and evict
the room from the registry if it is now empty. -/
def disconnectRoomPhase (username : String) (rooms : List (String × Room Pos)) :
    List (String × Room Pos) × List Emit :=
  match rooms.find? (fun p => hasA username p.2.players) with
  | none => (rooms, [])
  | some (rid, room) =>
    let room' := room.remove_player username
    let emits :=
      match room'.get_other_player username with
      | none => []
      | some other_player =>
        match getA other_player room'.players with
        | none => []
        | some other_sid => [Emit.opponent_disconnected (Target.conn other_sid)]
    if room'.players.length == 0 then (eraseA rid (updateA rid room' rooms), emits)
    else (updateA rid room' rooms, emits)

/-- socket_manager.py `SocketManager.on_disconnect`. When a username is
bound, the Python code executes `del self.username_to_socket[username]`
unconditionally; if that key is absent a KeyError escapes the handler and
the following `del self.socket_to_username[sid]` never runs — the else
branch models that exceptional exit (room mutations already made persist). -/
def on_disconnect (st : SMState Pos) (sid : String) : SMState Pos × List Emit :=
  match getA sid st.socket_to_username with
  | none => (st, [])
  | some username =>
    let res := disconnectRoomPhase username st.rooms
    if hasA username st.username_to_socket then
      ({ username_to_socket := eraseA username st.username_to_socket,
         socket_to_username := eraseA sid st.socket_to_username,
         rooms := res.1 }, res.2)
    else
      ({ st with rooms := res.1 }, res.2)

/-- socket_manager.py `SocketManager.on_join_room`, on the payload fields
`username` and `room_id` after Python's `dict.get` defaults. Both are
stripped; the identity directory is written before the capacity check, as
in the source. -/
def on_join_room [DecidableEq Move] (ra : RulesAuthority Pos Move) (oracle : Pos → Option Move)
    (fuel : Nat) (st : SMState Pos) (sid usernameRaw room_idRaw : String) :
    SMState Pos × List Emit :=
  let username := pyStrip usernameRaw
  let room_id := pyStrip room_idRaw
  if username = "" then (st, [Emit.error "Username is required" (Target.conn sid)])
  else
    let st1 : SMState Pos :=
      { st with
          username_to_socket := updateA username sid st.username_to_socket,
          socket_to_username := updateA sid username st.socket_to_username }
    let gc := get_or_create_room ra st1.rooms room_id
    let room := gc.1
    let st2 := { st1 with rooms := gc.2 }
    if room.is_full && !(hasA username room.players) then
      (st2, [Emit.error "Room is full" (Target.conn sid)])
    else
      let ar := if hasA username room.players then (room, true) else room.add_player username sid
      let room1 := ar.1
      let st3 := { st2 with rooms := updateA room_id room1 st2.rooms }
      if !ar.2 then (st3, [Emit.error "Failed to join room" (Target.conn sid)])
      else
        let e1 := [Emit.game_state (room1.get_fen ra) (room1.get_turn ra) (room1.get_status ra)
          (some (keysA room1.players)) (some room_id) (Target.conn sid)]
        if room1.is_full then
          let e2 :=
            match room1.get_other_player username with
            | none => []
            | some other_player =>
              match getA other_player room1.players with
              | none => []
              | some other_sid =>
                [Emit.player_joined username (keysA room1.players) (Target.conn other_sid)]
          let ap := auto_play ra oracle fuel room_id room1
          ({ st3 with rooms := updateA room_id ap.1 st3.rooms }, e1 ++ e2 ++ ap.2)
        else (st3, e1)

/-- The move-token resolution step of `on_player_move` for a normal player:
prefer the explicit `move_uci` payload field; when it is empty and a `fen`
hint is present, parse the hint (a parse exception is swallowed by the
bare except), enumerate the current board's legal moves and take the first
whose resulting FEN equals the re-serialized hint. An empty result means
no move was resolved. -/
def derive_move_uci [DecidableEq Move] (ra : RulesAuthority Pos Move) (room : Room Pos)
    (move_uci_in fen_in : String) : String :=
  if move_uci_in = "" then
    if fen_in = "" then ""
    else
      match ra.parseFen fen_in with
      | none => ""
      | some hint =>
        match (ra.legalMoves room.board).find?
            (fun m => ra.fen (ra.push room.board m) == ra.fen hint) with
        | none => ""
        | some m => ra.toUci m
  else move_uci_in

/-- socket_manager.py `SocketManager.on_player_move`, on the payload fields
`room_id`, `move_uci`, `fen` after Python's `dict.get` defaults ("default"
and "" respectively). -/
def on_player_move [DecidableEq Move] (ra : RulesAuthority Pos Move) (oracle : Pos → Option Move)
    (fuel : Nat) (st : SMState Pos) (sid room_id move_uci_in fen_in : String) :
    SMState Pos × List Emit :=
  match getA sid st.socket_to_username with
  | none => (st, [Emit.error "Not authenticated" (Target.conn sid)])
  | some username =>
    match getA room_id st.rooms with
    | none => (st, [Emit.error "Room not found" (Target.conn sid)])
    | some room =>
      if !(hasA username room.players) then
        (st, [Emit.error "Not in this room" (Target.conn sid)])
      else
        let players_list := keysA room.players
        if players_list.length < 2 then
          (st, [Emit.error "Waiting for opponent" (Target.conn sid)])
        else
          let is_player_white := players_list.indexOf username == 0
          if is_player_white != ra.turnWhite room.board then
            (st, [Emit.error "Not your turn" (Target.conn sid)])
          else if pyLower username = "raunak" then
            match oracle room.board with
            | none => (st, [Emit.error "AI could not generate move" (Target.conn sid)])
            | some ai_move =>
              let move_uci := ra.toUci ai_move
              let res := room.make_move ra move_uci
              if res.2 then
                ({ st with rooms := updateA room_id res.1 st.rooms },
                  [Emit.move_update (res.1.get_fen ra) move_uci username (Target.room room_id),
                    Emit.game_state (res.1.get_fen ra) (res.1.get_turn ra) (res.1.get_status ra)
                      none none (Target.room room_id)])
              else (st, [Emit.error "Invalid AI move" (Target.conn sid)])
          else
            let move_uci := derive_move_uci ra room move_uci_in fen_in
            if move_uci = "" then (st, [Emit.error "Move required" (Target.conn sid)])
            else
              let res := room.make_move ra move_uci
              if res.2 then
                let ap := auto_play ra oracle fuel room_id res.1
                ({ st with rooms := updateA room_id ap.1 st.rooms },
                  [Emit.move_update (res.1.get_fen ra) move_uci username (Target.room room_id),
                    Emit.game_state (res.1.get_fen ra) (res.1.get_turn ra) (res.1.get_status ra)
                      none none (Target.room room_id)] ++ ap.2)
              else (st, [Emit.error "Invalid move" (Target.conn sid)])

/-- Codec between small naturals and digit strings, kernel-reducible on
literals (used only by the toy authority below). -/
def natCode : Nat → String
  | 0 => "0"
  | 1 => "1"
  | 2 => "2"
  | 3 => "3"
  | 4 => "4"
  | 5 => "5"
  | _ => "big"

/-- Partial inverse of `natCode`. -/
def natDecode : String → Option Nat
  | "0" => some 0
  | "1" => some 1
  | "2" => some 2
  | "3" => some 3
  | "4" => some 4
  | "5" => some 5
  | _ => none

/-- A concrete toy rules authority used to evaluate the model on closed
inputs: positions and moves are naturals, the sole legal move at position
p is the move numbered p, and pushing any move advances the position. -/
def natRA : RulesAuthority Nat Nat where
  initial := 0
  fromUci := natDecode
  toUci := natCode
  legalMoves := fun p => [p]
  push := fun p _ => p + 1
  fen := natCode
  parseFen := natDecode
  turnWhite := fun p => p % 2 == 0
  is_checkmate := fun _ => false
  is_stalemate := fun _ => false
  is_insufficient_material := fun _ => false
  is_seventyfive_moves := fun _ => false
  is_fivefold_repetition := fun _ => false
  is_variant_draw := fun _ => false

/-- The record `Room.make_move` produces when it accepts move `m` carried
by token `u` (its success branch spelled out). -/
def pushedRoom (ra : RulesAuthority Pos Move) (room : Room Pos) (m : Move) (u : String) :
    Room Pos :=
  { room with
      board := ra.push room.board m,
      move_count := room.move_count + 1,
      game_log := room.game_log ++ [u] }

/-- The identity-directory synchronization invariant stated by the spec: a
pair is in the name-to-connection map iff the reversed pair is in the
connection-to-name map. -/
def Sync {Pos : Type} (st : SMState Pos) : Prop :=
  ∀ n c, getA n st.username_to_socket = some c ↔ getA c st.socket_to_username = some n

/-- `Sync` together with key-uniqueness of both directory maps (a Python
dict cannot hold duplicate keys). -/
def DirOk {Pos : Type} (st : SMState Pos) : Prop :=
  Sync st ∧ (keysA st.username_to_socket).Nodup ∧ (keysA st.socket_to_username).Nodup

/-- The inbound events that touch the identity directory. -/
inductive DirEvent where
  | join (sid username room_id : String)
  | disc (sid : String)

/-- One coordinator step on a directory event. -/
def dirStep [DecidableEq Move] (ra : RulesAuthority Pos Move) (oracle : Pos → Option Move)
    (fuel : Nat) (st : SMState Pos) : DirEvent → SMState Pos
  | DirEvent.join sid u rid => (on_join_room ra oracle fuel st sid u rid).1
  | DirEvent.disc sid => (on_disconnect st sid).1

/-- Folding a sequence of directory events through the coordinator. -/
def dirRun [DecidableEq Move] (ra : RulesAuthority Pos Move) (oracle : Pos → Option Move)
    (fuel : Nat) (st : SMState Pos) : List DirEvent → SMState Pos
  | [] => st
  | e :: es => dirRun ra oracle fuel (dirStep ra oracle fuel st e) es

/-- A join is a fresh bind or a re-bind of the existing pair: the stripped
name is empty (the handler rejects it before binding), or both the name and
the connection are currently unbound, or they are bound to each other. -/
def goodJoin {Pos : Type} (st : SMState Pos) (sid uRaw : String) : Prop :=
  pyStrip uRaw = "" ∨
  (getA (pyStrip uRaw) st.username_to_socket = none ∧
    getA sid st.socket_to_username = none) ∨
  (getA (pyStrip uRaw) st.username_to_socket = some sid ∧
    getA sid st.socket_to_username = some (pyStrip uRaw))

/-- Event restriction for the amended C4: joins must be fresh-or-same
binds, disconnects are unrestricted. -/
def goodEvent {Pos : Type} (st : SMState Pos) : DirEvent → Prop
  | DirEvent.join sid u _ => goodJoin st sid u
  | DirEvent.disc _ => True

/-- Every event of the trace satisfies `goodEvent` at its pre-state. -/
def goodTrace [DecidableEq Move] (ra : RulesAuthority Pos Move) (oracle : Pos → Option Move)
    (fuel : Nat) (st : SMState Pos) : List DirEvent → Prop
  | [] => True
  | e :: es => goodEvent st e ∧ goodTrace ra oracle fuel (dirStep ra oracle fuel st e) es

/-- The always-failing move oracle, used to instantiate handler theorems on
closed inputs. -/
def noOracle : Nat → Option Nat := fun _ => none

/-- A room at capacity 2, with alice already present. -/
def fullRoom : Room Nat :=
  { Room.new natRA "r" with players := [("alice", "s1"), ("bob", "s2")] }

/-- A room whose move log starts with a token that is illegal at the
initial position, followed by a legal one. -/
def skipRoom : Room Nat :=
  { Room.new natRA "r" with game_log := ["5", "0"] }

/-- One-player room holding alice. -/
def roomA : Room Nat :=
  { Room.new natRA "r1" with players := [("alice", "s1")] }

/-- Two-player room: alice joined first (white), bob second (black). -/
def roomAB : Room Nat :=
  { Room.new natRA "r1" with players := [("alice", "s1"), ("bob", "s2")] }

/-- Manager state with alice alone in room r1. -/
def stA : SMState Nat :=
  { username_to_socket := [("alice", "s1")],
    socket_to_username := [("s1", "alice")],
    rooms := [("r1", roomA)] }

/-- Manager state with alice and bob seated in room r1. -/
def stAB : SMState Nat :=
  { username_to_socket := [("alice", "s1"), ("bob", "s2")],
    socket_to_username := [("s1", "alice"), ("s2", "bob")],
    rooms := [("r1", roomAB)] }

/-- Manager state with alice and bob in r1 and carol bound but seated in no
room. -/
def stABC : SMState Nat :=
  { username_to_socket := [("alice", "s1"), ("bob", "s2"), ("carol", "s3")],
    socket_to_username := [("s1", "alice"), ("s2", "bob"), ("s3", "carol")],
    rooms := [("r1", roomAB)] }

/-- Two-room state: alice alone in r1, carol alone in r2. -/
def stTwoRooms : SMState Nat :=
  { username_to_socket := [("alice", "s1"), ("carol", "s3")],
    socket_to_username := [("s1", "alice"), ("s3", "carol")],
    rooms := [("r1", roomA),
      ("r2", { Room.new natRA "r2" with players := [("carol", "s3")] })] }

/-- State reached by the event sequence join(alice, s1, r1) then
join(alice, s2, r1): alice re-binds to a new connection. -/
def rebindState : SMState Nat :=
  (on_join_room natRA noOracle 0
    ((on_join_room natRA noOracle 0 (SMState.empty Nat) "s1" "alice" "r1").1)
    "s2" "alice" "r1").1

theorem getA_updateA {α : Type} (k k' : String) (v : α) (l : List (String × α)) :
    getA k (updateA k' v l) = if k' = k then some v else getA k l := by
  induction l with
  | nil => rfl
  | cons p rest ih =>
    obtain ⟨hk, hv⟩ := p
    by_cases h1 : hk = k' <;> by_cases h2 : k' = k <;> by_cases h3 : hk = k <;>
      simp_all [updateA, getA]

theorem getA_eq_none_iff {α : Type} (k : String) (l : List (String × α)) :
    getA k l = none ↔ k ∉ keysA l := by
  induction l with
  | nil => simp [getA, keysA]
  | cons p rest ih =>
    obtain ⟨pk, pv⟩ := p
    have hkeys : keysA ((pk, pv) :: rest) = pk :: keysA rest := rfl
    rw [hkeys]
    by_cases h : pk = k
    · subst h
      simp [getA]
    · simp only [getA, if_neg h, List.mem_cons, ih]
      constructor
      · intro hnot hor
        rcases hor with hh | hh
        · exact h hh.symm
        · exact hnot hh
      · exact fun hnot hh => hnot (Or.inr hh)

theorem keysA_updateA {α : Type} (k : String) (v : α) (l : List (String × α)) :
    keysA (updateA k v l) = if hasA k l then keysA l else keysA l ++ [k] := by
  induction l with
  | nil => simp [updateA, keysA, hasA, getA]
  | cons p rest ih =>
    obtain ⟨pk, pv⟩ := p
    by_cases h : pk = k
    · subst h
      simp [updateA, keysA, hasA, getA]
    · have hstep : keysA (updateA k v ((pk, pv) :: rest)) = pk :: keysA (updateA k v rest) := by
        simp [updateA, if_neg h, keysA]
      have h2 : hasA k ((pk, pv) :: rest) = hasA k rest := by simp [hasA, getA, h]
      rw [hstep, ih, h2]
      by_cases h3 : hasA k rest <;> simp [h3, keysA]

theorem length_updateA {α : Type} (k : String) (v : α) (l : List (String × α)) :
    (updateA k v l).length = if hasA k l then l.length else l.length + 1 := by
  have h : (keysA (updateA k v l)).length
      = (if hasA k l then keysA l else keysA l ++ [k]).length :=
    congrArg List.length (keysA_updateA k v l)
  simp only [keysA, List.length_map] at h
  rw [h]
  by_cases h2 : hasA k l <;> simp [h2, keysA]

theorem nodup_updateA {α : Type} (k : String) (v : α) (l : List (String × α))
    (h : (keysA l).Nodup) : (keysA (updateA k v l)).Nodup := by
  rw [keysA_updateA]
  by_cases h2 : hasA k l
  · simp [h2, h]
  · simp only [h2, Bool.false_eq_true, if_false]
    rw [List.nodup_append]
    refine ⟨h, List.nodup_singleton k, ?_⟩
    intro a ha hak
    rw [List.mem_singleton] at hak
    subst hak
    have hnone : getA a l = none := by
      cases hh : getA a l with
      | none => rfl
      | some w => simp [hasA, hh] at h2
    exact (getA_eq_none_iff a l).1 hnone ha

theorem eraseA_of_not_has {α : Type} (k : String) (l : List (String × α))
    (h : hasA k l = false) : eraseA k l = l := by
  induction l with
  | nil => rfl
  | cons p rest ih =>
    obtain ⟨pk, pv⟩ := p
    by_cases h2 : pk = k
    · subst h2
      simp [hasA, getA] at h
    · have h3 : hasA k rest = false := by simpa [hasA, getA, h2] using h
      simp [eraseA, h2, ih h3]

theorem getA_eraseA_ne {α : Type} (k k' : String) (l : List (String × α)) (h : k' ≠ k) :
    getA k (eraseA k' l) = getA k l := by
  induction l with
  | nil => rfl
  | cons p rest ih =>
    obtain ⟨pk, pv⟩ := p
    by_cases h1 : pk = k'
    · subst h1
      have h2 : ¬ pk = k := fun hh => h (hh ▸ rfl)
      simp [eraseA, getA, h2]
    · simp [eraseA, getA, h1, ih]

theorem getA_eraseA_self {α : Type} (k : String) (l : List (String × α))
    (h : (keysA l).Nodup) : getA k (eraseA k l) = none := by
  induction l with
  | nil => rfl
  | cons p rest ih =>
    obtain ⟨pk, pv⟩ := p
    have hkeys : keysA ((pk, pv) :: rest) = pk :: keysA rest := rfl
    rw [hkeys, List.nodup_cons] at h
    by_cases h1 : pk = k
    · subst h1
      simp only [eraseA, if_pos rfl]
      exact (getA_eq_none_iff pk rest).2 h.1
    · simp only [eraseA, if_neg h1, getA]
      exact ih h.2

theorem keysA_eraseA_sublist {α : Type} (k : String) (l : List (String × α)) :
    (keysA (eraseA k l)).Sublist (keysA l) := by
  induction l with
  | nil => simp [eraseA]
  | cons p rest ih =>
    obtain ⟨pk, pv⟩ := p
    by_cases h : pk = k
    · subst h
      simp only [eraseA, if_pos rfl]
      exact List.sublist_cons_self pk (keysA rest)
    · simp only [eraseA, if_neg h]
      exact List.Sublist.cons₂ pk ih

theorem nodup_eraseA {α : Type} (k : String) (l : List (String × α))
    (h : (keysA l).Nodup) : (keysA (eraseA k l)).Nodup :=
  h.sublist (keysA_eraseA_sublist k l)

theorem find?_eq_some_of_unique {α : Type} (p : α → Bool) (l : List α) (a : α)
    (hmem : a ∈ l) (hp : p a = true) (huniq : ∀ x ∈ l, p x = true → x = a) :
    l.find? p = some a := by
  induction l with
  | nil => cases hmem
  | cons b rest ih =>
    by_cases hb : p b = true
    · have hba : b = a := huniq b (List.mem_cons_self b rest) hb
      subst hba
      exact List.find?_cons_of_pos rest hb
    · have hba : b ≠ a := fun hh => hb (hh ▸ hp)
      have hmem' : a ∈ rest := by
        cases hmem with
        | head => exact absurd rfl hba
        | tail _ hm => exact hm
      rw [List.find?_cons_of_neg rest (by simpa using hb)]
      exact ih hmem' (fun x hx hpx => huniq x (List.mem_cons_of_mem b hx) hpx)

example : (Room.make_move natRA (Room.new natRA "r") "0").2 = true := by decide

example : (Room.make_move natRA (Room.new natRA "r") "5").2 = false := by decide

example : Room.export_pgn natRA { Room.new natRA "r" with game_log := ["5", "0"] }
    = some ([0], 1) := by decide

/-- C1: when `Room.make_move` returns true the position becomes the push of
the parsed move, `move_count` grows by exactly 1 and the `game_log` length
grows by exactly 1; when it returns false (parse failure or illegal move)
the room is entirely unchanged. -/
theorem c1_make_move_frame {Pos Move : Type} [DecidableEq Move]
    (ra : RulesAuthority Pos Move) (r : Room Pos) (uci : String) :
    ((r.make_move ra uci).2 = true →
      (∃ m, ra.fromUci uci = some m ∧ m ∈ ra.legalMoves r.board ∧
        (r.make_move ra uci).1.board = ra.push r.board m) ∧
      (r.make_move ra uci).1.move_count = r.move_count + 1 ∧
      (r.make_move ra uci).1.game_log.length = r.game_log.length + 1) ∧
    ((r.make_move ra uci).2 = false → (r.make_move ra uci).1 = r) := by
  unfold Room.make_move
  split
  · simp
  · rename_i m heq
    by_cases hmem : m ∈ ra.legalMoves r.board
    · rw [if_pos hmem]
      exact ⟨fun _ => ⟨⟨m, heq, hmem, rfl⟩, rfl, by simp⟩, fun hf => by simp at hf⟩
    · rw [if_neg hmem]
      exact ⟨fun h' => by simp at h', fun _ => rfl⟩

/-- C1 witness: the theorem evaluated on the toy authority, once on a move
that is accepted and once on one that is rejected. -/
theorem c1_make_move_frame_witness :
    (Room.make_move natRA (Room.new natRA "r") "0").1.move_count = 1 ∧
    (Room.make_move natRA fullRoom "5").1 = fullRoom := by
  constructor
  · exact ((c1_make_move_frame natRA (Room.new natRA "r") "0").1 (by decide)).2.1
  · exact (c1_make_move_frame natRA fullRoom "5").2 (by decide)

/-- C2 counterexample: with the room at capacity 2 and "alice" already a
participant, `add_player` returns false — not the claimed duplicate
re-join success. -/
theorem c2_add_player_cex :
    fullRoom.players.length = 2 ∧
    hasA "alice" fullRoom.players = true ∧
    (fullRoom.add_player "alice" "s3").2 = false := by decide

/-- C2 (amended): `add_player` returns false and leaves the participant map
unchanged whenever the room already holds 2 participants — even when the
given name is already present; below capacity, a name already present is
accepted (returns true) without adding a second entry: the name list is
unchanged and the name is re-bound to the new connection. -/
theorem c2_add_player_spec {Pos : Type} (r : Room Pos) (u s : String) :
    (2 ≤ r.players.length → r.add_player u s = (r, false)) ∧
    (r.players.length < 2 → hasA u r.players = true →
      (r.add_player u s).2 = true ∧
      keysA (r.add_player u s).1.players = keysA r.players ∧
      getA u (r.add_player u s).1.players = some s) := by
  constructor
  · intro h
    simp [Room.add_player, h]
  · intro h hu
    have hnot : ¬ 2 ≤ r.players.length := by omega
    refine ⟨by simp [Room.add_player, hnot], ?_, ?_⟩
    · simp only [Room.add_player, if_neg hnot]
      rw [keysA_updateA]
      simp [hu]
    · simp only [Room.add_player, if_neg hnot]
      rw [getA_updateA]
      simp

/-- C2 witness: the amended theorem applied to a full room and to a
one-player room re-adding its member. -/
theorem c2_add_player_spec_witness :
    fullRoom.add_player "alice" "s3" = (fullRoom, false) ∧
    (roomA.add_player "alice" "s9").2 = true ∧
    getA "alice" (roomA.add_player "alice" "s9").1.players = some "s9" := by
  refine ⟨(c2_add_player_spec fullRoom "alice" "s3").1 (by decide), ?_, ?_⟩
  · exact ((c2_add_player_spec roomA "alice" "s9").2 (by decide) (by decide)).1
  · exact ((c2_add_player_spec roomA "alice" "s9").2 (by decide) (by decide)).2.2

/-- C3 counterexample: the first logged token parses but is illegal on the
replay board, yet the export does not stop — the later logged legal move is
still included in the produced record. -/
theorem c3_export_pgn_cex :
    natRA.fromUci "5" = some 5 ∧
    5 ∉ natRA.legalMoves natRA.initial ∧
    Room.export_pgn natRA skipRoom = some ([0], 1) := by decide

/-- C3 (amended): the export replay re-validates each logged move but a
parsed-yet-illegal move is skipped and the replay continues with the
remaining log (later legal moves are still included); a token that fails to
parse aborts the whole export. -/
theorem c3_replay_skips {Pos Move : Type} [DecidableEq Move] (ra : RulesAuthority Pos Move)
    (u : String) (rest : List String) (b : Pos) :
    (∀ m, ra.fromUci u = some m → m ∉ ra.legalMoves b →
      replayLog ra (u :: rest) b = replayLog ra rest b) ∧
    (ra.fromUci u = none → replayLog ra (u :: rest) b = none) := by
  constructor
  · intro m hm hc
    conv_lhs => rw [replayLog]
    simp only [hm]
    rw [if_neg hc]
  · intro hm
    conv_lhs => rw [replayLog]
    simp only [hm]

/-- C3 witness: the amended theorem evaluated on the toy authority. -/
theorem c3_replay_skips_witness :
    replayLog natRA ["5", "0"] 0 = replayLog natRA ["0"] 0 ∧
    replayLog natRA ["big", "0"] 0 = none := by
  constructor
  · exact (c3_replay_skips natRA "5" ["0"] 0).1 5 (by decide) (by decide)
  · exact (c3_replay_skips natRA "big" ["0"] 0).2 (by decide)

/-- C8: `Room.get_status` evaluates the terminal conditions in the fixed
priority order checkmate, stalemate, insufficient material, seventy-five
move, fivefold repetition, variant draw, returns the first that holds, and
returns "ongoing" when none holds. -/
theorem c8_get_status_priority {Pos Move : Type} (ra : RulesAuthority Pos Move) (r : Room Pos) :
    (Room.get_status ra r = "checkmate" ↔ ra.is_checkmate r.board = true) ∧
    (Room.get_status ra r = "stalemate" ↔
      ra.is_checkmate r.board = false ∧ ra.is_stalemate r.board = true) ∧
    (Room.get_status ra r = "insufficient_material" ↔
      ra.is_checkmate r.board = false ∧ ra.is_stalemate r.board = false ∧
        ra.is_insufficient_material r.board = true) ∧
    (Room.get_status ra r = "seventyfive_moves" ↔
      ra.is_checkmate r.board = false ∧ ra.is_stalemate r.board = false ∧
        ra.is_insufficient_material r.board = false ∧
        ra.is_seventyfive_moves r.board = true) ∧
    (Room.get_status ra r = "fivefold_repetition" ↔
      ra.is_checkmate r.board = false ∧ ra.is_stalemate r.board = false ∧
        ra.is_insufficient_material r.board = false ∧
        ra.is_seventyfive_moves r.board = false ∧
        ra.is_fivefold_repetition r.board = true) ∧
    (Room.get_status ra r = "variant_draw" ↔
      ra.is_checkmate r.board = false ∧ ra.is_stalemate r.board = false ∧
        ra.is_insufficient_material r.board = false ∧
        ra.is_seventyfive_moves r.board = false ∧
        ra.is_fivefold_repetition r.board = false ∧
        ra.is_variant_draw r.board = true) ∧
    (Room.get_status ra r = "ongoing" ↔
      ra.is_checkmate r.board = false ∧ ra.is_stalemate r.board = false ∧
        ra.is_insufficient_material r.board = false ∧
        ra.is_seventyfive_moves r.board = false ∧
        ra.is_fivefold_repetition r.board = false ∧
        ra.is_variant_draw r.board = false) := by
  unfold Room.get_status
  cases hcm : ra.is_checkmate r.board <;>
    cases hsm : ra.is_stalemate r.board <;>
      cases him : ra.is_insufficient_material r.board <;>
        cases h75 : ra.is_seventyfive_moves r.board <;>
          cases h5f : ra.is_fivefold_repetition r.board <;>
            cases hvd : ra.is_variant_draw r.board <;>
              simp_all

/-- C9: removing an absent name from a room is a no-op both times it is
attempted, and a disconnect for a connection with no bound name changes no
directory entry and no session and emits nothing. -/
theorem c9_idempotent_noops {Pos : Type} :
    (∀ (r : Room Pos) (u : String), hasA u r.players = false →
      r.remove_player u = r ∧ (r.remove_player u).remove_player u = r) ∧
    (∀ (st : SMState Pos) (sid : String), getA sid st.socket_to_username = none →
      on_disconnect st sid = (st, [])) := by
  constructor
  · intro r u h
    have h1 : r.remove_player u = r := by
      unfold Room.remove_player
      rw [eraseA_of_not_has u r.players h]
    exact ⟨h1, by rw [h1, h1]⟩
  · intro st sid h
    unfold on_disconnect
    rw [h]

/-- C9 witness: the theorem evaluated on a concrete room and state. -/
theorem c9_idempotent_noops_witness :
    roomAB.remove_player "carol" = roomAB ∧ on_disconnect stAB "s9" = (stAB, []) := by
  constructor
  · exact ((@c9_idempotent_noops Nat).1 roomAB "carol" (by decide)).1
  · exact (@c9_idempotent_noops Nat).2 stAB "s9" (by decide)

/-- The registry after a disconnect for a bound name is the room-phase
result, whichever directory-deletion branch runs afterwards. -/
theorem on_disconnect_rooms {Pos : Type} (st : SMState Pos) (sid username : String)
    (h : getA sid st.socket_to_username = some username) :
    (on_disconnect st sid).1.rooms = (disconnectRoomPhase username st.rooms).1 := by
  unfold on_disconnect
  split
  · rename_i heq
    rw [h] at heq
    cases heq
  · rename_i u heq
    rw [h] at heq
    cases heq
    by_cases h2 : hasA username st.username_to_socket = true <;> simp [h2]

/-- C6: a disconnect that removes the last participant of the first registry
session containing the name evicts that session in the same event — a
subsequent lookup of its id returns none; a session keeping a remaining
participant is not removed (its updated entry stays registered). -/
theorem c6_disconnect_evicts {Pos : Type} (st : SMState Pos) (sid username rid : String)
    (room : Room Pos)
    (hnod : (keysA st.rooms).Nodup)
    (hb : getA sid st.socket_to_username = some username)
    (hf : st.rooms.find? (fun p => hasA username p.2.players) = some (rid, room)) :
    ((room.remove_player username).players.length = 0 →
      getA rid (on_disconnect st sid).1.rooms = none) ∧
    ((room.remove_player username).players.length ≠ 0 →
      getA rid (on_disconnect st sid).1.rooms = some (room.remove_player username)) := by
  rw [on_disconnect_rooms st sid username hb]
  unfold disconnectRoomPhase
  split
  · rename_i heq
    rw [hf] at heq
    cases heq
  · rename_i rid2 room2 heq
    rw [hf] at heq
    cases heq
    constructor
    · intro hlen
      have hbeq : ((room.remove_player username).players.length == 0) = true := by
        simp [hlen]
      simp only [hbeq, if_true]
      exact getA_eraseA_self rid _ (nodup_updateA rid _ st.rooms hnod)
    · intro hlen
      have hbeq : ((room.remove_player username).players.length == 0) = false := by
        simpa using hlen
      simp only [hbeq, Bool.false_eq_true, if_false]
      rw [getA_updateA]
      simp

/-- C6 witness: evicting alice's singleton room, and keeping the two-player
room after one player leaves. -/
theorem c6_disconnect_evicts_witness :
    getA "r1" (on_disconnect stA "s1").1.rooms = none ∧
    getA "r1" (on_disconnect stAB "s1").1.rooms = some (roomAB.remove_player "alice") := by
  constructor
  · exact (c6_disconnect_evicts stA "s1" "alice" "r1" roomA (by decide) (by decide)
      (by decide)).1 (by decide)
  · exact (c6_disconnect_evicts stAB "s1" "alice" "r1" roomAB (by decide) (by decide)
      (by decide)).2 (by decide)

/-- C10: a single disconnect removes the name from at most the first
registry session (in iteration order) containing it: every other session's
entry — participants, position, move log — is unchanged. -/
theorem c10_disconnect_frame {Pos : Type} (st : SMState Pos) (sid username rid rid' : String)
    (room : Room Pos)
    (hb : getA sid st.socket_to_username = some username)
    (hf : st.rooms.find? (fun p => hasA username p.2.players) = some (rid, room))
    (hne : rid' ≠ rid) :
    getA rid' (on_disconnect st sid).1.rooms = getA rid' st.rooms := by
  rw [on_disconnect_rooms st sid username hb]
  unfold disconnectRoomPhase
  split
  · rename_i heq
    rw [hf] at heq
    try cases heq
  · rename_i rid2 room2 heq
    rw [hf] at heq
    cases heq
    have hne2 : ¬ (rid = rid') := fun hh => hne hh.symm
    by_cases hbeq : ((room.remove_player username).players.length == 0) = true
    · simp only [hbeq, if_true]
      rw [getA_eraseA_ne rid' rid _ hne.symm, getA_updateA, if_neg hne2]
    · have hbeq2 : ((room.remove_player username).players.length == 0) = false := by
        simpa using hbeq
      simp only [hbeq2, Bool.false_eq_true, if_false]
      rw [getA_updateA, if_neg hne2]

/-- C10 witness: disconnecting alice (first found in r1) leaves r2
untouched. -/
theorem c10_disconnect_frame_witness :
    getA "r2" (on_disconnect stTwoRooms "s1").1.rooms = getA "r2" stTwoRooms.rooms :=
  c10_disconnect_frame stTwoRooms "s1" "alice" "r1" "r2" roomA (by decide) (by decide)
    (by decide)

/-- C5: the failure checks of `on_player_move` run in the fixed order
Unauthenticated, RoomNotFound, NotInRoom, WaitingForOpponent, NotYourTurn
(requester's side from join order versus side to move); the first failing
check emits exactly one error event to the requester alone and the state is
unchanged. -/
theorem c5_move_error_order {Pos Move : Type} [DecidableEq Move] (ra : RulesAuthority Pos Move)
    (oracle : Pos → Option Move) (fuel : Nat) (st : SMState Pos)
    (sid rid uci fen_in : String) :
    (getA sid st.socket_to_username = none →
      on_player_move ra oracle fuel st sid rid uci fen_in
        = (st, [Emit.error "Not authenticated" (Target.conn sid)])) ∧
    (∀ username, getA sid st.socket_to_username = some username →
      getA rid st.rooms = none →
      on_player_move ra oracle fuel st sid rid uci fen_in
        = (st, [Emit.error "Room not found" (Target.conn sid)])) ∧
    (∀ username room, getA sid st.socket_to_username = some username →
      getA rid st.rooms = some room →
      hasA username room.players = false →
      on_player_move ra oracle fuel st sid rid uci fen_in
        = (st, [Emit.error "Not in this room" (Target.conn sid)])) ∧
    (∀ username room, getA sid st.socket_to_username = some username →
      getA rid st.rooms = some room →
      hasA username room.players = true →
      (keysA room.players).length < 2 →
      on_player_move ra oracle fuel st sid rid uci fen_in
        = (st, [Emit.error "Waiting for opponent" (Target.conn sid)])) ∧
    (∀ username room, getA sid st.socket_to_username = some username →
      getA rid st.rooms = some room →
      hasA username room.players = true →
      2 ≤ (keysA room.players).length →
      ((keysA room.players).indexOf username == 0) ≠ ra.turnWhite room.board →
      on_player_move ra oracle fuel st sid rid uci fen_in
        = (st, [Emit.error "Not your turn" (Target.conn sid)])) := by
  refine ⟨?_, ?_, ?_, ?_, ?_⟩
  · intro h
    unfold on_player_move
    split
    · rfl
    · rename_i u heq
      rw [h] at heq
      try cases heq
  · intro username h hroom
    unfold on_player_move
    split
    · rename_i heq
      rw [h] at heq
      try cases heq
    · rename_i u heq
      rw [h] at heq
      cases heq
      split
      · rfl
      · rename_i room heq2
        rw [hroom] at heq2
        try cases heq2
  · intro username room h hroom hnotin
    unfold on_player_move
    split
    · rename_i heq
      rw [h] at heq
      try cases heq
    · rename_i u heq
      rw [h] at heq
      cases heq
      split
      · rename_i heq2
        rw [hroom] at heq2
        try cases heq2
      · rename_i room2 heq2
        rw [hroom] at heq2
        cases heq2
        simp [hnotin]
  · intro username room h hroom hin hlen
    unfold on_player_move
    split
    · rename_i heq
      rw [h] at heq
      try cases heq
    · rename_i u heq
      rw [h] at heq
      cases heq
      split
      · rename_i heq2
        rw [hroom] at heq2
        try cases heq2
      · rename_i room2 heq2
        rw [hroom] at heq2
        cases heq2
        simp [hin, hlen]
  · intro username room h hroom hin hlen hturn
    unfold on_player_move
    split
    · rename_i heq
      rw [h] at heq
      try cases heq
    · rename_i u heq
      rw [h] at heq
      cases heq
      split
      · rename_i heq2
        rw [hroom] at heq2
        try cases heq2
      · rename_i room2 heq2
        rw [hroom] at heq2
        cases heq2
        have hnl : ¬ ((keysA room.players).length < 2) := Nat.not_lt.mpr hlen
        have hb2 : (((keysA room.players).indexOf username == 0)
            != ra.turnWhite room.board) = true := by
          simpa using hturn
        simp [hin, hnl, hb2]

/-- C5 witness: each error, triggered at a concrete state. -/
theorem c5_move_error_order_witness :
    on_player_move natRA noOracle 0 stAB "sX" "r1" "0" ""
      = (stAB, [Emit.error "Not authenticated" (Target.conn "sX")]) ∧
    on_player_move natRA noOracle 0 stAB "s1" "rX" "0" ""
      = (stAB, [Emit.error "Room not found" (Target.conn "s1")]) ∧
    on_player_move natRA noOracle 0 stABC "s3" "r1" "0" ""
      = (stABC, [Emit.error "Not in this room" (Target.conn "s3")]) ∧
    on_player_move natRA noOracle 0 stA "s1" "r1" "0" ""
      = (stA, [Emit.error "Waiting for opponent" (Target.conn "s1")]) ∧
    on_player_move natRA noOracle 0 stAB "s2" "r1" "0" ""
      = (stAB, [Emit.error "Not your turn" (Target.conn "s2")]) := by
  refine ⟨?_, ?_, ?_, ?_, ?_⟩
  · exact (c5_move_error_order natRA noOracle 0 stAB "sX" "r1" "0" "").1 (by decide)
  · exact (c5_move_error_order natRA noOracle 0 stAB "s1" "rX" "0" "").2.1 "alice"
      (by decide) (by decide)
  · exact (c5_move_error_order natRA noOracle 0 stABC "s3" "r1" "0" "").2.2.1 "carol" roomAB
      (by decide) (by decide) (by decide)
  · exact (c5_move_error_order natRA noOracle 0 stA "s1" "r1" "0" "").2.2.2.1 "alice" roomA
      (by decide) (by decide) (by decide) (by decide)
  · exact (c5_move_error_order natRA noOracle 0 stAB "s2" "r1" "0" "").2.2.2.2 "bob" roomAB
      (by decide) (by decide) (by decide) (by decide) (by decide)

/-- When the FEN hint parses and exactly one legal move reproduces it, the
derivation step returns that move's token. -/
theorem derive_move_uci_of_match {Pos Move : Type} [DecidableEq Move]
    (ra : RulesAuthority Pos Move) (room : Room Pos) (fen_in : String) (hint : Pos) (m : Move)
    (hfe : fen_in ≠ "")
    (hparse : ra.parseFen fen_in = some hint)
    (hm : m ∈ ra.legalMoves room.board)
    (hmatch : ra.fen (ra.push room.board m) = ra.fen hint)
    (huniq : ∀ mp ∈ ra.legalMoves room.board,
      ra.fen (ra.push room.board mp) = ra.fen hint → mp = m) :
    derive_move_uci ra room "" fen_in = ra.toUci m := by
  unfold derive_move_uci
  rw [if_pos rfl, if_neg hfe]
  have hfind : (ra.legalMoves room.board).find?
      (fun mp => ra.fen (ra.push room.board mp) == ra.fen hint) = some m := by
    apply find?_eq_some_of_unique _ _ m hm
    · exact beq_iff_eq.mpr hmatch
    · intro x hx hpx
      exact huniq x hx (beq_iff_eq.mp hpx)
  split
  · rename_i heq
    rw [hparse] at heq
    try cases heq
  · rename_i hint2 heq
    rw [hparse] at heq
    cases heq
    split
    · rename_i heqf
      rw [hfind] at heqf
      try cases heqf
    · rename_i m2 heqf
      rw [hfind] at heqf
      cases heqf
      rfl

/-- When no hint is supplied, the hint fails to parse, or no legal move
reproduces it, the derivation step returns the empty token. -/
theorem derive_move_uci_of_no_match {Pos Move : Type} [DecidableEq Move]
    (ra : RulesAuthority Pos Move) (room : Room Pos) (fen_in : String)
    (hfail : fen_in = "" ∨ ∀ hint, ra.parseFen fen_in = some hint →
      ∀ mp ∈ ra.legalMoves room.board, ra.fen (ra.push room.board mp) ≠ ra.fen hint) :
    derive_move_uci ra room "" fen_in = "" := by
  unfold derive_move_uci
  rw [if_pos rfl]
  by_cases hfe : fen_in = ""
  · rw [if_pos hfe]
  · rw [if_neg hfe]
    have hno : ∀ hint, ra.parseFen fen_in = some hint →
        ∀ mp ∈ ra.legalMoves room.board, ra.fen (ra.push room.board mp) ≠ ra.fen hint := by
      rcases hfail with hfail | hfail
      · exact absurd hfail hfe
      · exact hfail
    split
    · rfl
    · rename_i hint heq
      have hfind : (ra.legalMoves room.board).find?
          (fun mp => ra.fen (ra.push room.board mp) == ra.fen hint) = none := by
        rw [List.find?_eq_none]
        intro x hx
        simp only [beq_iff_eq]
        exact hno hint heq x hx
      split
      · rfl
      · rename_i m2 heqf
        rw [hfind] at heqf
        try cases heqf

/-- `Room.make_move` on a token that parses to a legal move produces
exactly the pushed room and true. -/
theorem make_move_success {Pos Move : Type} [DecidableEq Move] (ra : RulesAuthority Pos Move)
    (room : Room Pos) (m : Move) (u : String)
    (hparse : ra.fromUci u = some m) (hm : m ∈ ra.legalMoves room.board) :
    room.make_move ra u = (pushedRoom ra room m u, true) := by
  unfold Room.make_move pushedRoom
  split
  · rename_i heq
    rw [hparse] at heq
    try cases heq
  · rename_i m2 heq
    rw [hparse] at heq
    cases heq
    rw [if_pos hm]

/-- C7: for a move event from a non-reserved, authenticated, seated player
whose side is on move and that carries no explicit move token: a
canonical-position hint that exactly identifies a legal move (the unique
legal move whose application reproduces the hint's canonical form) causes
that move to be the one applied and broadcast; if no legal move matches the
hint or no hint is supplied, the handler fails with "Move required" and the
state is unchanged. -/
theorem c7_fen_hint_resolution {Pos Move : Type} [DecidableEq Move]
    (ra : RulesAuthority Pos Move) (oracle : Pos → Option Move) (fuel : Nat)
    (st : SMState Pos) (sid rid fen_in username : String) (room : Room Pos)
    (hb : getA sid st.socket_to_username = some username)
    (hroom : getA rid st.rooms = some room)
    (hin : hasA username room.players = true)
    (htwo : 2 ≤ (keysA room.players).length)
    (hturn : ((keysA room.players).indexOf username == 0) = ra.turnWhite room.board)
    (hnr : pyLower username ≠ "raunak") :
    (∀ hint m, fen_in ≠ "" → ra.parseFen fen_in = some hint →
      m ∈ ra.legalMoves room.board →
      ra.fen (ra.push room.board m) = ra.fen hint →
      (∀ mp ∈ ra.legalMoves room.board,
        ra.fen (ra.push room.board mp) = ra.fen hint → mp = m) →
      ra.fromUci (ra.toUci m) = some m →
      ra.toUci m ≠ "" →
      on_player_move ra oracle fuel st sid rid "" fen_in
        = ({ st with rooms := (updateA rid
              (auto_play ra oracle fuel rid (pushedRoom ra room m (ra.toUci m))).1 st.rooms) },
           [Emit.move_update (Room.get_fen ra (pushedRoom ra room m (ra.toUci m)))
              (ra.toUci m) username (Target.room rid),
            Emit.game_state (Room.get_fen ra (pushedRoom ra room m (ra.toUci m)))
              (Room.get_turn ra (pushedRoom ra room m (ra.toUci m)))
              (Room.get_status ra (pushedRoom ra room m (ra.toUci m)))
              none none (Target.room rid)]
           ++ (auto_play ra oracle fuel rid (pushedRoom ra room m (ra.toUci m))).2)) ∧
    ((fen_in = "" ∨ ∀ hint, ra.parseFen fen_in = some hint →
        ∀ mp ∈ ra.legalMoves room.board, ra.fen (ra.push room.board mp) ≠ ra.fen hint) →
      on_player_move ra oracle fuel st sid rid "" fen_in
        = (st, [Emit.error "Move required" (Target.conn sid)])) := by
  have hnl : ¬ ((keysA room.players).length < 2) := Nat.not_lt.mpr htwo
  have hturn2 : (((keysA room.players).indexOf username == 0)
      != ra.turnWhite room.board) = false := by simpa using hturn
  constructor
  · intro hint m hfe hparse hm hmatch huniq hround htok
    unfold on_player_move
    split
    · rename_i heq
      rw [hb] at heq
      try cases heq
    · rename_i u heq
      rw [hb] at heq
      cases heq
      split
      · rename_i heq2
        rw [hroom] at heq2
        try cases heq2
      · rename_i room2 heq2
        rw [hroom] at heq2
        cases heq2
        simp only [hin, Bool.not_true, Bool.false_eq_true, if_false, if_neg hnl, hturn2,
          if_neg hnr, derive_move_uci_of_match ra room fen_in hint m hfe hparse hm hmatch huniq,
          if_neg htok, make_move_success ra room m (ra.toUci m) hround hm, if_true]
  · intro hfail
    unfold on_player_move
    split
    · rename_i heq
      rw [hb] at heq
      try cases heq
    · rename_i u heq
      rw [hb] at heq
      cases heq
      split
      · rename_i heq2
        rw [hroom] at heq2
        try cases heq2
      · rename_i room2 heq2
        rw [hroom] at heq2
        cases heq2
        simp only [hin, Bool.not_true, Bool.false_eq_true, if_false, if_neg hnl, hturn2,
          if_neg hnr, derive_move_uci_of_no_match ra room fen_in hfail, if_pos rfl]
        simp

/-- C7 witness: on the toy authority, the hint "1" identifies the unique
legal move at position 0 and that move is applied; an absent hint fails
with the move-required error. -/
theorem c7_fen_hint_resolution_witness :
    on_player_move natRA noOracle 0 stAB "s1" "r1" "" "1"
      = ({ stAB with rooms := (updateA "r1"
            (auto_play natRA noOracle 0 "r1" (pushedRoom natRA roomAB 0 "0")).1 stAB.rooms) },
         [Emit.move_update (Room.get_fen natRA (pushedRoom natRA roomAB 0 "0")) "0" "alice"
            (Target.room "r1"),
          Emit.game_state (Room.get_fen natRA (pushedRoom natRA roomAB 0 "0"))
            (Room.get_turn natRA (pushedRoom natRA roomAB 0 "0"))
            (Room.get_status natRA (pushedRoom natRA roomAB 0 "0"))
            none none (Target.room "r1")]
         ++ (auto_play natRA noOracle 0 "r1" (pushedRoom natRA roomAB 0 "0")).2) ∧
    on_player_move natRA noOracle 0 stAB "s1" "r1" "" ""
      = (stAB, [Emit.error "Move required" (Target.conn "s1")]) := by
  constructor
  · exact (c7_fen_hint_resolution natRA noOracle 0 stAB "s1" "r1" "1" "alice" roomAB
      (by decide) (by decide) (by decide) (by decide) (by decide) (by decide)).1 1 0
      (by decide) (by decide) (by decide) (by decide) (by decide) (by decide) (by decide)
  · exact (c7_fen_hint_resolution natRA noOracle 0 stAB "s1" "r1" "" "alice" roomAB
      (by decide) (by decide) (by decide) (by decide) (by decide) (by decide)).2
      (Or.inl rfl)

/-- The identity-directory fields after a join: untouched when the stripped
name is empty, otherwise both maps are written before any capacity check,
in every branch of the handler. -/
theorem on_join_room_maps {Pos Move : Type} [DecidableEq Move] (ra : RulesAuthority Pos Move)
    (oracle : Pos → Option Move) (fuel : Nat) (st : SMState Pos) (sid u rid : String) :
    (on_join_room ra oracle fuel st sid u rid).1.username_to_socket
      = (if pyStrip u = "" then st.username_to_socket
         else updateA (pyStrip u) sid st.username_to_socket) ∧
    (on_join_room ra oracle fuel st sid u rid).1.socket_to_username
      = (if pyStrip u = "" then st.socket_to_username
         else updateA sid (pyStrip u) st.socket_to_username) := by
  unfold on_join_room
  by_cases h : pyStrip u = ""
  · simp [h]
  · simp only [if_neg h]
    constructor <;> (repeat first | rfl | split)

/-- Binding a fresh or re-bound pair into both directory maps preserves the
synchronization invariant. -/
theorem sync_bind {Pos : Type} (st : SMState Pos) (n c : String) (hs : Sync st)
    (hgood : (getA n st.username_to_socket = none ∧ getA c st.socket_to_username = none) ∨
      (getA n st.username_to_socket = some c ∧ getA c st.socket_to_username = some n)) :
    ∀ n' c', getA n' (updateA n c st.username_to_socket) = some c' ↔
      getA c' (updateA c n st.socket_to_username) = some n' := by
  intro n' c'
  rw [getA_updateA, getA_updateA]
  by_cases h1 : n = n' <;> by_cases h2 : c = c'
  · subst h1
    subst h2
    simp
  · subst h1
    rw [if_pos rfl, if_neg h2]
    constructor
    · intro hh
      exact absurd (Option.some.inj hh) h2
    · intro hr
      have hfwd := (hs n c').mpr hr
      rcases hgood with ⟨hf1, hf2⟩ | ⟨hg1, hg2⟩
      · rw [hf1] at hfwd
        cases hfwd
      · rw [hg1] at hfwd
        exact absurd (Option.some.inj hfwd) h2
  · subst h2
    rw [if_neg h1, if_pos rfl]
    constructor
    · intro hl
      have hrev := (hs n' c).mp hl
      rcases hgood with ⟨hf1, hf2⟩ | ⟨hg1, hg2⟩
      · rw [hf2] at hrev
        cases hrev
      · rw [hg2] at hrev
        exact absurd (Option.some.inj hrev) h1
    · intro hh
      exact absurd (Option.some.inj hh) h1
  · rw [if_neg h1, if_neg h2]
    exact hs n' c'

/-- A fresh-or-same join preserves the directory invariant. -/
theorem dirok_join {Pos Move : Type} [DecidableEq Move] (ra : RulesAuthority Pos Move)
    (oracle : Pos → Option Move) (fuel : Nat) (st : SMState Pos) (sid u rid : String)
    (h : DirOk st) (hg : goodJoin st sid u) :
    DirOk (on_join_room ra oracle fuel st sid u rid).1 := by
  obtain ⟨hs, hn1, hn2⟩ := h
  obtain ⟨hm1, hm2⟩ := on_join_room_maps ra oracle fuel st sid u rid
  by_cases he : pyStrip u = ""
  · rw [if_pos he] at hm1 hm2
    exact ⟨fun n c => by rw [hm1, hm2]; exact hs n c,
      by rw [hm1]; exact hn1, by rw [hm2]; exact hn2⟩
  · rw [if_neg he] at hm1 hm2
    have hg2 : (getA (pyStrip u) st.username_to_socket = none ∧
          getA sid st.socket_to_username = none) ∨
        (getA (pyStrip u) st.username_to_socket = some sid ∧
          getA sid st.socket_to_username = some (pyStrip u)) := by
      rcases hg with hg | hg | hg
      · exact absurd hg he
      · exact Or.inl hg
      · exact Or.inr hg
    refine ⟨fun n c => ?_, ?_, ?_⟩
    · rw [hm1, hm2]
      exact sync_bind st (pyStrip u) sid hs hg2 n c
    · rw [hm1]
      exact nodup_updateA _ _ _ hn1
    · rw [hm2]
      exact nodup_updateA _ _ _ hn2

/-- Any disconnect preserves the directory invariant. -/
theorem dirok_disconnect {Pos : Type} (st : SMState Pos) (sid : String) (h : DirOk st) :
    DirOk (on_disconnect st sid).1 := by
  obtain ⟨hs, hn1, hn2⟩ := h
  unfold on_disconnect
  split
  · exact ⟨hs, hn1, hn2⟩
  · rename_i username heq
    have hfwd : getA username st.username_to_socket = some sid := (hs username sid).mpr heq
    have hhas : hasA username st.username_to_socket = true := by
      rw [hasA, hfwd]
      rfl
    rw [if_pos hhas]
    refine ⟨fun n c => ?_, nodup_eraseA _ _ hn1, nodup_eraseA _ _ hn2⟩
    by_cases hn : username = n
    · subst hn
      rw [getA_eraseA_self _ _ hn1]
      constructor
      · intro hh
        cases hh
      · intro hr
        by_cases hc : sid = c
        · subst hc
          rw [getA_eraseA_self _ _ hn2] at hr
          cases hr
        · rw [getA_eraseA_ne c sid _ hc] at hr
          have := (hs username c).mpr hr
          rw [hfwd] at this
          exact absurd (Option.some.inj this) hc
    · rw [getA_eraseA_ne n username _ hn]
      by_cases hc : sid = c
      · subst hc
        rw [getA_eraseA_self _ _ hn2]
        constructor
        · intro hl
          have := (hs n sid).mp hl
          rw [heq] at this
          exact absurd (Option.some.inj this) hn
        · intro hr
          cases hr
      · rw [getA_eraseA_ne c sid _ hc]
        exact hs n c

/-- The directory invariant holds along every good trace. -/
theorem dirok_run {Pos Move : Type} [DecidableEq Move] (ra : RulesAuthority Pos Move)
    (oracle : Pos → Option Move) (fuel : Nat) (es : List DirEvent) :
    ∀ st : SMState Pos, DirOk st → goodTrace ra oracle fuel st es →
      DirOk (dirRun ra oracle fuel st es) := by
  induction es with
  | nil => exact fun st h _ => h
  | cons e es ih =>
    intro st h hg
    obtain ⟨hge, hgt⟩ := hg
    have hstep : DirOk (dirStep ra oracle fuel st e) := by
      cases e with
      | join sid u rid => exact dirok_join ra oracle fuel st sid u rid h hge
      | disc sid => exact dirok_disconnect st sid h
    exact ih (dirStep ra oracle fuel st e) hstep hgt

/-- C4 counterexample: after the event sequence join(alice from s1) then
join(alice from s2) — the name re-binding to a new connection — the forward
map binds alice to s2 while the reverse map still holds the stale pair
(s1, alice): the two directory maps are out of sync. -/
theorem c4_directory_sync_cex :
    getA "alice" rebindState.username_to_socket = some "s2" ∧
    getA "s1" rebindState.socket_to_username = some "alice" ∧
    ¬ Sync rebindState := by
  refine ⟨by decide, by decide, fun h => ?_⟩
  have h1 : getA "alice" rebindState.username_to_socket = some "s1" :=
    (h "alice" "s1").mpr (by decide)
  have h2 : getA "alice" rebindState.username_to_socket = some "s2" := by decide
  have h3 : some "s1" = some "s2" := h1.symm.trans h2
  exact (by decide : ("s1" : String) ≠ "s2") (Option.some.inj h3)

/-- C4 (amended): the two directory maps are in sync at every point
reachable by join and disconnect events, provided each join is a fresh bind
(name and connection both unbound) or a re-bind of the same (name,
connection) pair; when a name re-binds to a new connection the stale
reverse entry survives and the invariant fails. -/
theorem c4_directory_sync {Pos Move : Type} [DecidableEq Move] (ra : RulesAuthority Pos Move)
    (oracle : Pos → Option Move) (fuel : Nat) (es : List DirEvent) (st : SMState Pos)
    (h : DirOk st) (hg : goodTrace ra oracle fuel st es) :
    Sync (dirRun ra oracle fuel st es) :=
  (dirok_run ra oracle fuel es st h hg).1

/-- C4 witness: the invariant along a concrete fresh-bind trace from the
empty state. -/
theorem c4_directory_sync_witness :
    Sync (dirRun natRA noOracle 0 (SMState.empty Nat)
      [DirEvent.join "s1" "alice" "r1", DirEvent.disc "s1"]) := by
  apply c4_directory_sync
  · refine ⟨fun n c => ?_, ?_, ?_⟩
    · simp [SMState.empty, getA]
    · simp [SMState.empty, keysA]
    · simp [SMState.empty, keysA]
  · exact ⟨Or.inr (Or.inl ⟨rfl, rfl⟩), trivial, trivial⟩

end SimpleChess
